import Mathlib

/-!
Shallow embedding of the csv.ac inspect service:
the proxy pool scheduler (`proxy_pool_manager.js`), the request queue
(`queue.js`), the upstream session (`bot.js`), the fleet supervisor
(`bot_controller.js`) and the HTTP admission check (`handleJob`).
Sessions (bots) are identified by natural numbers; JS `Map`s become
association lists; timers become returned "scheduled delay" values.
-/

set_option maxRecDepth 4000

/-- Replace the element at index `i` by `f` applied to it; out-of-range
indices leave the list unchanged (mirrors in-place mutation of the object
held at that position of a JS array). -/
def modifyIdx (f : α → α) : Nat → List α → List α
  | _, [] => []
  | 0, a :: l => f a :: l
  | n + 1, a :: l => a :: modifyIdx f n l

/-- JS `Map.get` on a map with Nat keys: first binding wins. -/
def alookup (l : List (Nat × α)) (k : Nat) : Option α :=
  (l.find? (fun p => p.1 == k)).map (·.2)

/-- JS `Map.set`: overwrite an existing binding, else append a new one. -/
def aset (l : List (Nat × α)) (k : Nat) (v : α) : List (Nat × α) :=
  if l.any (fun p => p.1 == k) then
    l.map (fun p => if p.1 == k then (k, v) else p)
  else l ++ [(k, v)]

/-- Observable flags of a session as read by the pool (`bot.busy`,
`bot.ready` in `proxy_pool_manager.js`). -/
structure BotFlags where
  busy : Bool
  ready : Bool
  deriving DecidableEq, Repr

/-- One proxy group (`class ProxyGroup`, proxy_pool_manager.js:5-91).
`bots` holds the ids of the bound sessions in list order. -/
structure ProxyGroup where
  id : Nat
  proxyUrl : Option String
  bots : List Nat
  activeRequests : Nat
  totalRequests : Nat
  lastRequestTime : Nat
  failures : Nat
  loginFailures : Nat
  successfulLogins : Nat
  deriving DecidableEq, Repr

/-- Embeds `ProxyGroup.addBot` (line 18): push the bot onto the group's list. -/
def ProxyGroup.addBot (g : ProxyGroup) (b : Nat) : ProxyGroup :=
  { g with bots := g.bots ++ [b] }

/-- Embeds `ProxyGroup.removeBot` (line 23): splice out the first occurrence. -/
def ProxyGroup.removeBot (g : ProxyGroup) (b : Nat) : ProxyGroup :=
  { g with bots := g.bots.erase b }

/-- Embeds `recordLoginFailure` (line 36). -/
def ProxyGroup.recordLoginFailure (g : ProxyGroup) : ProxyGroup :=
  { g with loginFailures := g.loginFailures + 1 }

/-- Embeds `recordLoginSuccess` (line 32). -/
def ProxyGroup.recordLoginSuccess (g : ProxyGroup) : ProxyGroup :=
  { g with successfulLogins := g.successfulLogins + 1 }

/-- Embeds `getSuccessRate` (line 40): successfulLogins / (successfulLogins +
loginFailures), and 0 when the denominator is 0. -/
def ProxyGroup.getSuccessRate (g : ProxyGroup) : ℚ :=
  let total := g.successfulLogins + g.loginFailures
  if 0 < total then (g.successfulLogins : ℚ) / (total : ℚ) else 0

/-- Embeds `canAcceptRequest` (line 45): reject when at the per-proxy concurrency
cap, or when a nonzero cooldown has not yet elapsed since the last
request start. -/
def ProxyGroup.canAcceptRequest (g : ProxyGroup) (maxReq cooldown now : Nat) : Bool :=
  if maxReq ≤ g.activeRequests then false
  else if 0 < cooldown ∧ now - g.lastRequestTime < cooldown then false
  else true

/-- Embeds `ProxyGroup.getAvailableBot` (line 58): first bound session that is
neither busy nor unready. -/
def ProxyGroup.getAvailableBot (g : ProxyGroup) (flags : Nat → BotFlags) : Option Nat :=
  g.bots.find? (fun b => !(flags b).busy && (flags b).ready)

/-- Embeds `startRequest` (line 67). -/
def ProxyGroup.startRequest (g : ProxyGroup) (now : Nat) : ProxyGroup :=
  { g with activeRequests := g.activeRequests + 1,
           totalRequests := g.totalRequests + 1,
           lastRequestTime := now }

/-- Embeds `endRequest` (line 73): decrement clamped at 0; count a failure when
the request was unsuccessful. -/
def ProxyGroup.endRequest (g : ProxyGroup) (success : Bool) : ProxyGroup :=
  { g with activeRequests := g.activeRequests - 1,
           failures := if success then g.failures else g.failures + 1 }

/-- The load metric of the least-loaded strategy (line 211):
`activeRequests / max(1, bots.length)`. -/
def groupLoad (g : ProxyGroup) : ℚ :=
  (g.activeRequests : ℚ) / (max 1 g.bots.length : ℚ)

/-- State of the pool (`class ProxyPoolManager`, lines 93-433). -/
structure PoolState where
  groups : List ProxyGroup
  botToGroupMap : List (Nat × Nat)
  maxRequestsPerProxy : Nat
  requestCooldown : Nat
  retryEnabled : Bool
  maxRetries : Nat
  excludeFailed : Bool
  retryDelay : Nat
  botRetryCount : List (Nat × Nat)
  failedProxies : List Nat
  currentRoundRobinIndex : Nat
  deriving DecidableEq, Repr

/-- Apply `f` to every group whose id is `gid` (the JS code mutates the
single object holding that id; ids are distinct by construction). -/
def modifyGroupById (gid : Nat) (f : ProxyGroup → ProxyGroup)
    (groups : List ProxyGroup) : List ProxyGroup :=
  groups.map (fun g => if g.id == gid then f g else g)

/-- The body of the `bots.forEach` in `distributeBots` (lines 149-174):
push each bot into the group at `proxyIndex`, record the binding, and
advance `proxyIndex` after every `bpp` bots while room remains. -/
def distributeLoop (bpp len : Nat) :
    List Nat → Nat → Nat → List ProxyGroup → List (Nat × Nat) →
    List ProxyGroup × List (Nat × Nat)
  | [], _, _, groups, m => (groups, m)
  | b :: rest, botIndex, proxyIndex, groups, m =>
    let groups' := modifyIdx (fun g => g.addBot b) proxyIndex groups
    let gid := ((groups[proxyIndex]?).map (·.id)).getD 0
    let m' := aset m b gid
    let proxyIndex' :=
      if (botIndex + 1) % bpp = 0 ∧ proxyIndex < len - 1 then proxyIndex + 1
      else proxyIndex
    distributeLoop bpp len rest (botIndex + 1) proxyIndex' groups' m'

/-- Embeds `distributeBots` (lines 135-181): clear every group and the binding
map, then spread the bots over the groups, `⌈B/G⌉` per group. -/
def distributeBots (st : PoolState) (bots : List Nat) : PoolState :=
  if st.groups.length = 0 then st
  else
    let cleared := st.groups.map (fun g => { g with bots := ([] : List Nat) })
    let bpp := (bots.length + st.groups.length - 1) / st.groups.length
    let r := distributeLoop bpp st.groups.length bots 0 0 cleared []
    { st with groups := r.1, botToGroupMap := r.2 }

/-- The test `load < minLoad` where `minLoad` starts at Infinity (line 207). -/
def ltLoad (l : ℚ) : Option ℚ → Bool
  | none => true
  | some q => decide (l < q)

/-- The least-loaded scan (lines 209-222): walk the groups keeping the
best admissible group that yielded an available bot; `k` is the index of
the head of the remaining list. -/
def llAux (maxReq cooldown now : Nat) (flags : Nat → BotFlags) :
    List ProxyGroup → Nat → Option ℚ → Option (Nat × Nat) → Option (Nat × Nat)
  | [], _, _, acc => acc
  | g :: rest, k, minLoad, acc =>
    if g.canAcceptRequest maxReq cooldown now then
      if ltLoad (groupLoad g) minLoad then
        match g.getAvailableBot flags with
        | some b => llAux maxReq cooldown now flags rest (k + 1) (some (groupLoad g)) (some (k, b))
        | none => llAux maxReq cooldown now flags rest (k + 1) minLoad acc
      else llAux maxReq cooldown now flags rest (k + 1) minLoad acc
    else llAux maxReq cooldown now flags rest (k + 1) minLoad acc

/-- The round-robin scan (lines 187-204); `iter` counts iterations done,
`remaining` counts those left. -/
def rrAux (maxReq cooldown now : Nat) (flags : Nat → BotFlags)
    (groups : List ProxyGroup) (start : Nat) :
    Nat → Nat → Option (Nat × Nat)
  | _, 0 => none
  | iter, remaining + 1 =>
    let index := (start + iter) % groups.length
    match groups[index]? with
    | none => none
    | some g =>
      if g.canAcceptRequest maxReq cooldown now then
        match g.getAvailableBot flags with
        | some b => some (index, b)
        | none => rrAux maxReq cooldown now flags groups start (iter + 1) remaining
      else rrAux maxReq cooldown now flags groups start (iter + 1) remaining

/-- Embeds `ProxyPoolManager.getAvailableBot` (lines 183-232): select a group by
strategy, then charge the selection via `startRequest` and hand out the
bot. Returns the updated pool and the chosen bot id. -/
def PoolState.getAvailableBot (st : PoolState) (flags : Nat → BotFlags)
    (now : Nat) (strategy : String) : PoolState × Option Nat :=
  if strategy = "round_robin" then
    match rrAux st.maxRequestsPerProxy st.requestCooldown now flags st.groups
        st.currentRoundRobinIndex 0 st.groups.length with
    | none => (st, none)
    | some (i, b) =>
      ({ st with groups := modifyIdx (fun g => g.startRequest now) i st.groups,
                 currentRoundRobinIndex := (i + 1) % st.groups.length }, some b)
  else
    match llAux st.maxRequestsPerProxy st.requestCooldown now flags st.groups 0 none none with
    | none => (st, none)
    | some (i, b) =>
      ({ st with groups := modifyIdx (fun g => g.startRequest now) i st.groups }, some b)

/-- Embeds `releaseBot` (lines 234-240): a mapped bot's group ends the request;
an unmapped bot leaves the pool untouched. -/
def releaseBot (st : PoolState) (b : Nat) (success : Bool) : PoolState :=
  match alookup st.botToGroupMap b with
  | some gid => { st with groups := modifyGroupById gid (fun g => g.endRequest success) st.groups }
  | none => st

/-- The reassignment summary returned by `reassignBot` (lines 335-340). -/
structure ReassignOutcome where
  proxyGroupId : Nat
  proxyUrl : Option String
  currentLoad : Nat
  successRate : ℚ
  deriving DecidableEq, Repr

/-- The sort comparator of `reassignBot` (lines 309-315): success rate
descending when the difference exceeds 0.1, else fewer bots first. -/
def cmpGroups (a b : ProxyGroup) : Int :=
  let d := b.getSuccessRate - a.getSuccessRate
  if (1 : ℚ) / 10 < |d| then (if 0 < d then 1 else -1)
  else (a.bots.length : Int) - (b.bots.length : Int)

/-- Stable insertion used to model `Array.prototype.sort`. -/
def insertCmp (cmp : α → α → Int) (a : α) : List α → List α
  | [] => [a]
  | b :: l => if cmp a b ≤ 0 then a :: b :: l else b :: insertCmp cmp a l

/-- Stable sort by a JS-style comparator. -/
def sortCmp (cmp : α → α → Int) (l : List α) : List α :=
  l.foldr (insertCmp cmp) []

/-- The removal step of `reassignBot` (lines 285-291): unbind the bot
from the group the map names for it, if any. -/
def removeFromCurrent (st : PoolState) (b : Nat) : List ProxyGroup :=
  match alookup st.botToGroupMap b with
  | some gid => modifyGroupById gid (fun g => g.removeBot b) st.groups
  | none => st.groups

/-- Embeds `reassignBot` (lines 284-341): drop the bot from its current group,
filter the groups that may take it, sort them by the comparator and bind
the bot to the head; `none` when no group qualifies. -/
def reassignBot (st : PoolState) (b : Nat) (excludeGroupIds : List Nat) :
    PoolState × Option ReassignOutcome :=
  let groups1 := removeFromCurrent st b
  let avail := groups1.filter (fun g =>
    !(excludeGroupIds.contains g.id) &&
    !(st.excludeFailed && st.failedProxies.contains g.id) &&
    decide (g.bots.length < st.maxRequestsPerProxy))
  match sortCmp cmpGroups avail with
  | [] => ({ st with groups := groups1 }, none)
  | newG :: _ =>
    ({ st with groups := modifyGroupById newG.id (fun g => g.addBot b) groups1,
               botToGroupMap := aset st.botToGroupMap b newG.id },
     some ⟨newG.id, newG.proxyUrl, newG.bots.length + 1, newG.getSuccessRate⟩)

/-- The opening of `handleLoginFailure` (lines 345-354): charge the
failure to the bot's group, then mark the proxy failed when its record
has sunk low enough. Returns the group id found for the bot, if any. -/
def recordFailureStep (st : PoolState) (b : Nat) : PoolState × Option Nat :=
  match alookup st.botToGroupMap b with
  | none => (st, none)
  | some gid =>
    let groups' := modifyGroupById gid (·.recordLoginFailure) st.groups
    let st1 := { st with groups := groups' }
    match groups'.find? (fun g => g.id == gid) with
    | some g' =>
      if 5 < g'.loginFailures ∧ g'.getSuccessRate < 3 / 10 then
        (if st1.failedProxies.contains gid then (st1, some gid)
         else ({ st1 with failedProxies := st1.failedProxies ++ [gid] }, some gid))
      else (st1, some gid)
    | none => (st1, some gid)

/-- The decision returned by `handleLoginFailure` (lines 356-418). -/
structure RetryDecision where
  shouldRetry : Bool
  newProxy : Option ReassignOutcome
  retryDelay : Option Nat
  retryCount : Option Nat
  deriving DecidableEq, Repr

/-- The bare `{shouldRetry: false}` result. -/
def noRetry : RetryDecision := ⟨false, none, none, none⟩

/-- Embeds `handleLoginFailure` (lines 344-419): record the failure, then decide
whether and how to retry. Steamguard failures get a different-proxy
retry with a 10 s pool-side delay even when no alternative proxy exists;
other reasons retry only when a reassignment succeeds, with the
configured default delay. -/
def handleLoginFailure (st : PoolState) (b : Nat) (reason : String) :
    PoolState × RetryDecision :=
  let r0 := recordFailureStep st b
  let st1 := r0.1
  let gid? := r0.2
  if ¬ st1.retryEnabled then (st1, noRetry)
  else if reason = "steamguard" then
    let rc := (alookup st1.botRetryCount b).getD 0
    if st1.maxRetries ≤ rc then (st1, noRetry)
    else
      let st2 := { st1 with botRetryCount := aset st1.botRetryCount b (rc + 1) }
      let excl := match gid? with | some g => [g] | none => []
      let r := reassignBot st2 b excl
      match r.2 with
      | none => (r.1, ⟨true, none, some 10000, some (rc + 1)⟩)
      | some out => (r.1, ⟨true, some out, some 10000, some (rc + 1)⟩)
  else
    let rc := (alookup st1.botRetryCount b).getD 0
    if st1.maxRetries ≤ rc then (st1, noRetry)
    else
      let st2 := { st1 with botRetryCount := aset st1.botRetryCount b (rc + 1) }
      let excl := match gid? with | some g => [g] | none => []
      let r := reassignBot st2 b excl
      match r.2 with
      | none => (r.1, noRetry)
      | some out => (r.1, ⟨true, some out, some st2.retryDelay, some (rc + 1)⟩)

/-- Embeds `handleLoginSuccess` (lines 422-432). -/
def handleLoginSuccess (st : PoolState) (b : Nat) : PoolState :=
  let st1 :=
    match alookup st.botToGroupMap b with
    | some gid => { st with groups := modifyGroupById gid (·.recordLoginSuccess) st.groups }
    | none => st
  { st1 with botRetryCount := st1.botRetryCount.filter (fun p => p.1 != b) }

/-- The delay the supervisor schedules before re-issuing `logIn` after a
login failure (`handleBotLoginFailure`, bot_controller.js:129-207):
steamguard retries fire only with a fresh proxy and wait 15 s; ratelimit
retries back off exponentially capped at 120 s; proxy errors wait 10 s;
anything else uses the pool's configured delay. `none` means no retry is
scheduled. -/
def handleBotLoginFailureDelay (st : PoolState) (b : Nat) (reason : String) :
    PoolState × Option Nat :=
  if reason = "steamguard" then
    let r := handleLoginFailure st b reason
    if r.2.shouldRetry && r.2.newProxy.isSome then (r.1, some 15000) else (r.1, none)
  else
    let r := handleLoginFailure st b reason
    if ¬ r.2.shouldRetry then (r.1, none)
    else
      let rc := r.2.retryCount.getD 0
      let d :=
        if reason = "ratelimit" then min (30000 * 2 ^ (rc - 1)) 120000
        else if reason = "proxy" then 10000
        else (r.2.retryDelay.getD 0)
      (r.1, some d)

/-- One queue entry (`addJob`, queue.js:50-66). -/
structure QueueEntry where
  attempts : Nat
  max_attempts : Nat
  ip : String
  deriving DecidableEq, Repr

/-- Queue state relevant to drain-failure handling: the pending entries
and the per-client counters `users[ip]`. -/
structure QueueState where
  queue : List QueueEntry
  users : String → Int

/-- The `.catch` branch of `checkQueue` (queue.js:96-109): a
`NoBotsAvailable` rejection is not counted as an attempt; any other error
is. An entry whose attempts then equal `max_attempts` is terminal: `job
failed` fires (the returned flag) and `users[ip]` is decremented;
otherwise the entry is unshifted back onto the head of the queue. -/
def checkQueueOnRejection (st : QueueState) (e : QueueEntry) (errIsNoBots : Bool) :
    QueueState × Bool :=
  let e' := if errIsNoBots then e else { e with attempts := e.attempts + 1 }
  if e'.attempts = e'.max_attempts then
    ({ st with users := fun ip => if ip = e.ip then st.users ip - 1 else st.users ip }, true)
  else
    ({ st with queue := e' :: st.queue }, false)

/-- Outcome of the admission part of `handleJob` (index file, lines
173-189): which error short-circuits, or whether the job's residue is
enqueued (or there is nothing left to do). -/
inductive JobOutcome
  | steamOffline
  | maxRequests
  | maxQueueSize
  | enqueued
  | doneAlready
  deriving DecidableEq, Repr

/-- The admission checks of `handleJob`: no ready session → SteamOffline;
a positive per-client cap smaller than the client's queued plus incoming
links → MaxRequests; a positive global cap smaller than the queue plus
incoming links → MaxQueueSize; otherwise a nonempty residue is enqueued. -/
def handleJobDecision (hasBotOnline : Bool) (userQueuedAmt queueSize remainingSize : Nat)
    (maxSimultaneous mqs : Int) : JobOutcome :=
  if ¬ hasBotOnline then .steamOffline
  else if 0 < maxSimultaneous ∧ (userQueuedAmt : Int) + remainingSize > maxSimultaneous then
    .maxRequests
  else if 0 < mqs ∧ (queueSize : Int) + remainingSize > mqs then .maxQueueSize
  else if 0 < remainingSize then .enqueued
  else .doneAlready

/-- A submission the admission check lets through. -/
abbrev admitted (r : JobOutcome) : Prop :=
  r = .enqueued ∨ r = .doneAlready

/-- The in-flight request of a session (`this.currentRequest`,
bot.js `sendFloatRequest`): the inspect parameters and issue time. -/
structure CurrentRequest where
  s : Nat
  a : Nat
  d : Nat
  m : Nat
  time : Nat
  deriving DecidableEq, Repr

/-- Mutable state of one upstream session (`class Bot`, bot.js): the
`busy`/`ready` flags, the pending request, whether a resolver is pending
(`this.resolve` truthy) and whether a TTL timer is armed. -/
structure SessionState where
  busy : Bool
  ready : Bool
  hasResolve : Bool
  ttlArmed : Bool
  currentRequest : Option CurrentRequest
  deriving DecidableEq, Repr

/-- A sticker as found in the game-coordinator reply. -/
structure RawSticker where
  sticker_id : Nat
  deriving DecidableEq, Repr

/-- A sticker after normalization: `sticker_id` renamed `stickerId`. -/
structure OutSticker where
  stickerId : Nat
  deriving DecidableEq, Repr

/-- The reply payload of `inspectItemInfo` before normalization; a null
`paintseed` is `none`, `paintwear` may be missing. -/
structure RawItemInfo where
  itemid : Nat
  paintseed : Option Nat
  paintwear : Option ℚ
  stickers : List RawSticker
  deriving DecidableEq, Repr

/-- The normalized `iteminfo` written into the reply (bot.js:396-412):
the request parameters stamped in, `paintseed` forced to 0 when absent,
`paintwear` renamed `floatvalue`, stickers renamed. -/
structure OutItemInfo where
  itemid : Nat
  s : Nat
  a : Nat
  d : Nat
  m : Nat
  paintseed : Nat
  floatvalue : Option ℚ
  stickers : List OutSticker
  deriving DecidableEq, Repr

/-- The resolved value handed to the pending promise: the normalized item
plus the residual pacing delay. -/
structure ItemReply where
  delay : Int
  iteminfo : OutItemInfo
  deriving DecidableEq, Repr

/-- The `inspectItemInfo` handler (bot.js:374-423). With a pending
resolver and request, a reply matching `currentRequest.a` computes
`delay = request_delay − (now − issueTime)` clamped at 0, resolves the
promise with the normalized payload carrying that delay, clears the
resolver, request and TTL timer, and schedules `busy := false` after
`delay` ms (the third component). Any other reply is dropped with no
state change. -/
def handleInspectItemInfo (sess : SessionState) (request_delay : Int) (now : Nat)
    (raw : RawItemInfo) : SessionState × Option ItemReply × Option Int :=
  match sess.currentRequest, sess.hasResolve with
  | some req, true =>
    if raw.itemid ≠ req.a then (sess, none, none)
    else
      let offset : Int := (now : Int) - (req.time : Int)
      let delay0 : Int := request_delay - offset
      let delay : Int := if delay0 < 0 then 0 else delay0
      let info : OutItemInfo :=
        { itemid := raw.itemid, s := req.s, a := req.a, d := req.d, m := req.m,
          paintseed := raw.paintseed.getD 0,
          floatvalue := raw.paintwear,
          stickers := raw.stickers.map (fun st => ⟨st.sticker_id⟩) }
      ({ sess with hasResolve := false, currentRequest := none, ttlArmed := false },
       some ⟨delay, info⟩, some delay)
  | _, _ => (sess, none, none)

/-- Embeds `sendFloatRequest` (bot.js:473-499): unconditionally install the
resolver, set `busy`, record `currentRequest` stamped `now`, and arm the
TTL timer for `request_ttl` ms (third component). When the session is not
ready the promise is rejected immediately with "This bot is not ready"
(second component) — but none of that state is rolled back. -/
def sendFloatRequest (sess : SessionState) (s a d m : Nat) (now request_ttl : Nat) :
    SessionState × Option String × Nat :=
  let sess1 := { sess with
    busy := true, hasResolve := true, ttlArmed := true,
    currentRequest := some ⟨s, a, d, m, now⟩ }
  if ¬ sess.ready then (sess1, some "This bot is not ready", request_ttl)
  else (sess1, none, request_ttl)

/-- The TTL timer callback of `sendFloatRequest` (bot.js:493-498): when
it fires it clears `busy` and `currentRequest` and rejects the promise. -/
def ttlTimerFire (sess : SessionState) : SessionState :=
  { sess with busy := false, currentRequest := none }

/-- The auth fields of the `logOn` payload built by `logIn`
(bot.js:230-249). -/
structure LoginAuthFields where
  authCode : Option String
  twoFactorCode : Option String
  deriving DecidableEq, Repr

/-- The auth-code selection of `logIn` (bot.js:230-249): an explicit
one-time code wins outright; else a non-empty secret of at most 5
characters is sent verbatim as `authCode`; else the secret is treated as
a shared secret and `totp` derives a time-based code (`none` models the
caught generation failure, which leaves both fields unset). -/
def logInAuthFields (auth : Option String) (steamGuardCode : Option String)
    (totp : String → Option String) : LoginAuthFields :=
  match steamGuardCode with
  | some c => ⟨some c, none⟩
  | none =>
    match auth with
    | some a =>
      if a = "" then ⟨none, none⟩
      else if a.length ≤ 5 then ⟨some a, none⟩
      else ⟨none, totp a⟩
    | none => ⟨none, none⟩

/-- A group is a candidate of the least-loaded scan: it passes admission
and holds an available session. -/
def Cand (maxReq cooldown now : Nat) (flags : Nat → BotFlags) (g : ProxyGroup) : Prop :=
  g.canAcceptRequest maxReq cooldown now = true ∧ (g.getAvailableBot flags).isSome = true

/-- Invariant of the least-loaded scan after the first `k` groups: either
nothing was picked and no candidate was seen, or the pick is the earliest
candidate of minimal load among the first `k` groups, and the running
minimum is that candidate's load. -/
def ScanInv (maxReq cooldown now : Nat) (flags : Nat → BotFlags)
    (gs : List ProxyGroup) (k : Nat) (m : Option ℚ) (acc : Option (Nat × Nat)) : Prop :=
  (m = none ∧ acc = none ∧
    ∀ (j : Nat) (g : ProxyGroup), j < k → gs[j]? = some g →
      ¬ Cand maxReq cooldown now flags g) ∨
  (∃ (i b : Nat) (gi : ProxyGroup),
    m = some (groupLoad gi) ∧ acc = some (i, b) ∧ i < k ∧ gs[i]? = some gi ∧
    Cand maxReq cooldown now flags gi ∧
    gi.getAvailableBot flags = some b ∧
    (∀ (j : Nat) (g : ProxyGroup), j < k → gs[j]? = some g →
      Cand maxReq cooldown now flags g → groupLoad gi ≤ groupLoad g) ∧
    (∀ (j : Nat) (g : ProxyGroup), j < i → gs[j]? = some g →
      Cand maxReq cooldown now flags g → groupLoad gi < groupLoad g))

/-- Each session id appears in the bots list of at most one group. -/
def AtMostOne (groups : List ProxyGroup) : Prop :=
  ∀ (b i j : Nat) (gi gj : ProxyGroup), groups[i]? = some gi → groups[j]? = some gj →
    b ∈ gi.bots → b ∈ gj.bots → i = j

/-- The session id `b` is bound to no group at all. -/
def NotInAnyGroup (groups : List ProxyGroup) (b : Nat) : Prop :=
  ∀ (i : Nat) (g : ProxyGroup), groups[i]? = some g → b ∉ g.bots

/-- The `botToGroupMap` names the group of every bound session (true of
every state the pool itself produces: bindings are created only together
with map entries). -/
def MapConsistent (groups : List ProxyGroup) (mp : List (Nat × Nat)) : Prop :=
  ∀ b g, g ∈ groups → b ∈ g.bots → alookup mp b = some g.id

/-- Concrete group for the C1 failing input: one prior successful login,
no failures, session 7 bound. -/
def gC1 : ProxyGroup := ⟨0, none, [7], 0, 0, 0, 0, 0, 1⟩

/-- Concrete pool for the C1 failing input. -/
def poolC1 : PoolState := ⟨[gC1], [(7, 0)], 3, 100, true, 3, true, 5000, [], [], 0⟩

/-- Group 0 of the least-loaded witness pool: two bound sessions, load 1. -/
def g60 : ProxyGroup := ⟨0, none, [1, 2], 2, 5, 0, 0, 0, 0⟩

/-- Group 1 of the least-loaded witness pool: two bound sessions, load 1/2. -/
def g61 : ProxyGroup := ⟨1, none, [3, 4], 1, 5, 0, 0, 0, 0⟩

/-- Pool on which the least-loaded selection is exercised. -/
def pool6 : PoolState :=
  ⟨[g60, g61], [(1, 0), (2, 0), (3, 1), (4, 1)], 3, 0, true, 3, true, 5000, [], [], 0⟩

/-- Flags for the least-loaded witness: only session 4 is free. -/
def flags6 : Nat → BotFlags := fun b => if b = 4 then ⟨false, true⟩ else ⟨true, true⟩

/-- The pool after the least-loaded selection charged group 1 at time 50. -/
def pool6after : PoolState :=
  ⟨[g60, ⟨1, none, [3, 4], 2, 6, 50, 0, 0, 0⟩], [(1, 0), (2, 0), (3, 1), (4, 1)],
   3, 0, true, 3, true, 5000, [], [], 0⟩

/-- First group of the retry-delay witness pool, holding session 7. -/
def g80 : ProxyGroup := ⟨0, none, [7], 0, 0, 0, 0, 0, 0⟩

/-- Second, empty group of the retry-delay witness pool. -/
def g81 : ProxyGroup := ⟨1, none, [], 0, 0, 0, 0, 0, 0⟩

/-- Pool on which the login-retry delays are exercised. -/
def pool8 : PoolState := ⟨[g80, g81], [(7, 0)], 3, 100, true, 3, true, 5000, [], [], 0⟩

/-- The pool after a ratelimit failure of session 7 on `pool8`: the
failure recorded on group 0, session 7 rebound to group 1. -/
def pool8R : PoolState :=
  ⟨[⟨0, none, [], 0, 0, 0, 0, 1, 0⟩, ⟨1, none, [7], 0, 0, 0, 0, 0, 0⟩],
   [(7, 1)], 3, 100, true, 3, true, 5000, [(7, 1)], [], 0⟩

/-- Single-group pool used to discharge the pool invariants concretely. -/
def pool5 : PoolState :=
  ⟨[⟨0, none, [7], 0, 0, 0, 0, 0, 0⟩], [(7, 0)], 3, 100, true, 3, true, 5000, [], [], 0⟩

/-- Session state used by the inspect-completion witness. -/
def sess4 : SessionState := ⟨true, true, true, true, some ⟨10, 111, 12, 222, 1000⟩⟩

/-- The in-flight request of `sess4`. -/
def req4 : CurrentRequest := ⟨10, 111, 12, 222, 1000⟩

/-- The raw reply of the normalization round-trip: `paintwear = 0.123`,
`paintseed` absent, one sticker with `sticker_id = 5`. -/
def raw4 : RawItemInfo := ⟨111, none, some (123 / 1000), [⟨5⟩]⟩

/-- An unready session used by the sendFloatRequest witness. -/
def sess9 : SessionState := ⟨false, false, false, false, none⟩

/-- Queue state used by the drain-rejection witness. -/
def stQ : QueueState := ⟨[], fun _ => 2⟩

/-- Entry used by the drain-rejection witness. -/
def eQ : QueueEntry := ⟨0, 2, "10.0.0.9"⟩

/-- C1 (code bug): `handleLoginFailure` charges a steamguard login
failure against proxy health. On a group with one prior successful login
and no failures, a steamguard failure of its bound session leaves
`loginFailures = 1` as the spec says, but the group's success rate drops
from 1 to 1/2 — the code calls `recordLoginFailure` before the
`reason == steamguard` check, contradicting the spec and the code's own
comment that a steamguard failure is not counted against the proxy. -/
theorem steamguard_charges_proxy_health :
    gC1.getSuccessRate = 1 ∧
    (handleLoginFailure poolC1 7 "steamguard").1.groups
      = [⟨0, none, [], 0, 0, 0, 0, 1, 1⟩] ∧
    (⟨0, none, [], 0, 0, 0, 0, 1, 1⟩ : ProxyGroup).getSuccessRate = 1 / 2 ∧
    (handleLoginFailure poolC1 7 "steamguard").2.shouldRetry = true := by
  refine ⟨?_, by decide, ?_, by decide⟩
  · norm_num [ProxyGroup.getSuccessRate, gC1]
  · norm_num [ProxyGroup.getSuccessRate]

/-- C2 (counterexample): raising `max_queue_size` from 0 (cap disabled)
to 3 rejects a previously accepted submission, so admission is not
monotone over all configured values. -/
theorem admission_monotonicity_cex :
    admitted (handleJobDecision true 0 5 1 0 0) ∧ (0 : Int) < 3 ∧
    ¬ admitted (handleJobDecision true 0 5 1 0 3) := by
  refine ⟨by decide, by decide, by decide⟩

/-- C2 (amended): for positive caps, raising `max_queue_size` never
causes a previously accepted submission state to be rejected; the
original claim fails only when the smaller value is the disabled
sentinel `max_queue_size ≤ 0`. -/
theorem admission_monotone_of_pos (hasBot : Bool) (uq qs rem : Nat)
    (maxSim m1 m2 : Int) (h1 : 0 < m1) (h12 : m1 ≤ m2)
    (hacc : admitted (handleJobDecision hasBot uq qs rem maxSim m1)) :
    admitted (handleJobDecision hasBot uq qs rem maxSim m2) := by
  unfold handleJobDecision at hacc ⊢
  by_cases hb : ¬ hasBot = true
  · rw [if_pos hb] at hacc
    exact absurd hacc (by simp)
  · rw [if_neg hb] at hacc ⊢
    by_cases hms : 0 < maxSim ∧ (uq : Int) + rem > maxSim
    · rw [if_pos hms] at hacc
      exact absurd hacc (by simp)
    · rw [if_neg hms] at hacc ⊢
      by_cases hq1 : 0 < m1 ∧ (qs : Int) + rem > m1
      · rw [if_pos hq1] at hacc
        exact absurd hacc (by simp)
      · rw [if_neg hq1] at hacc
        have hq2 : ¬ (0 < m2 ∧ (qs : Int) + rem > m2) := by
          rintro ⟨hp, hgt⟩
          exact hq1 ⟨h1, by omega⟩
        rw [if_neg hq2]
        exact hacc

/-- Witness for the amended C2 theorem at a concrete state. -/
theorem admission_monotone_of_pos_witness :
    admitted (handleJobDecision true 0 5 1 0 10) :=
  admission_monotone_of_pos true 0 5 1 0 6 10 (by decide) (by decide) (by decide)

/-- C3: when a drained entry's handler rejects, a `NoBotsAvailable`
rejection leaves `attempts` unchanged while any other error increments
it; an entry whose (possibly updated) attempts equal `max_attempts` is
terminal — `job failed` fires and `users[ip]` is decremented — and
otherwise the entry is unshifted back onto the head of the queue. -/
theorem queue_rejection_handling (st : QueueState) (e : QueueEntry) (noBots : Bool) :
    (noBots = true → e.attempts ≠ e.max_attempts →
      checkQueueOnRejection st e noBots = ({ st with queue := e :: st.queue }, false)) ∧
    (noBots = true → e.attempts = e.max_attempts →
      (checkQueueOnRejection st e noBots).2 = true ∧
      (checkQueueOnRejection st e noBots).1.queue = st.queue ∧
      (checkQueueOnRejection st e noBots).1.users e.ip = st.users e.ip - 1 ∧
      (∀ ip, ip ≠ e.ip → (checkQueueOnRejection st e noBots).1.users ip = st.users ip)) ∧
    (noBots = false → e.attempts + 1 ≠ e.max_attempts →
      checkQueueOnRejection st e noBots =
        ({ st with queue := { e with attempts := e.attempts + 1 } :: st.queue }, false)) ∧
    (noBots = false → e.attempts + 1 = e.max_attempts →
      (checkQueueOnRejection st e noBots).2 = true ∧
      (checkQueueOnRejection st e noBots).1.queue = st.queue ∧
      (checkQueueOnRejection st e noBots).1.users e.ip = st.users e.ip - 1 ∧
      (∀ ip, ip ≠ e.ip → (checkQueueOnRejection st e noBots).1.users ip = st.users ip)) := by
  refine ⟨?_, ?_, ?_, ?_⟩
  · intro hb hne
    simp [checkQueueOnRejection, hb, hne]
  · intro hb heq
    simp [checkQueueOnRejection, hb, heq]
  · intro hb hne
    simp [checkQueueOnRejection, hb, hne]
  · intro hb heq
    simp [checkQueueOnRejection, hb, heq]

/-- Witness for the queue-rejection theorem: a non-`NoBotsAvailable`
rejection of a first-attempt entry with `max_attempts = 2` re-inserts it
at the head with one counted attempt. -/
theorem queue_rejection_handling_witness :
    checkQueueOnRejection stQ eQ false =
      ({ stQ with queue := { eQ with attempts := eQ.attempts + 1 } :: stQ.queue }, false) :=
  (queue_rejection_handling stQ eQ false).2.2.1 rfl (by decide)

/-- C4: with a pending resolver, a reply matching `currentRequest.a`
resolves the promise with `delay = request_delay − (now − issueTime)`
clamped at 0 and the normalized payload (`paintseed` forced to 0 when
absent, `paintwear` renamed `floatvalue`, each sticker's `sticker_id`
renamed `stickerId`), schedules the busy-clear after exactly that delay
while leaving `busy` itself untouched, and clears the resolver and
request; a reply with any other item id changes nothing. -/
theorem inspect_completion (sess : SessionState) (req : CurrentRequest)
    (request_delay : Int) (now : Nat) (raw : RawItemInfo)
    (hreq : sess.currentRequest = some req) (hres : sess.hasResolve = true) :
    (raw.itemid = req.a →
      (handleInspectItemInfo sess request_delay now raw).2.1 =
        some ⟨max 0 (request_delay - ((now : Int) - (req.time : Int))),
              ⟨req.a, req.s, req.a, req.d, req.m, raw.paintseed.getD 0, raw.paintwear,
               raw.stickers.map (fun stk => ⟨stk.sticker_id⟩)⟩⟩ ∧
      (handleInspectItemInfo sess request_delay now raw).2.2 =
        some (max 0 (request_delay - ((now : Int) - (req.time : Int)))) ∧
      (raw.paintseed = none →
        ((handleInspectItemInfo sess request_delay now raw).2.1.map
          (fun r => r.iteminfo.paintseed)) = some 0) ∧
      (handleInspectItemInfo sess request_delay now raw).1 =
        { sess with hasResolve := false, currentRequest := none, ttlArmed := false } ∧
      (handleInspectItemInfo sess request_delay now raw).1.busy = sess.busy) ∧
    (raw.itemid ≠ req.a →
      handleInspectItemInfo sess request_delay now raw = (sess, none, none)) := by
  have hmax : ∀ x : Int, (if x < 0 then 0 else x) = max 0 x := by
    intro x; rcases lt_or_ge x 0 with h | h
    · simp [h, max_eq_left h.le]
    · simp [not_lt.mpr h, max_eq_right h]
  constructor
  · intro he
    have hcond : ¬ (raw.itemid ≠ req.a) := by simp [he]
    simp only [handleInspectItemInfo, hreq, hres, if_neg hcond]
    refine ⟨?_, ?_, ?_, by trivial, by trivial⟩
    · rw [hmax, he]
    · rw [hmax]
    · intro hps
      simp [hps]
  · intro hne
    simp only [handleInspectItemInfo, hreq, hres, ne_eq, hne, not_false_eq_true, if_true]

/-- Witness for the inspect-completion theorem: the normalization
round-trip of the spec (`paintwear = 123/1000`, `paintseed` absent, one
sticker with id 5) at issue time 1000, reply time 1200 and a 1500 ms
request delay. -/
theorem inspect_completion_witness :
    (handleInspectItemInfo sess4 1500 1200 raw4).2.1 =
      some ⟨max 0 ((1500 : Int) - ((1200 : Int) - ((1000 : Nat) : Int))),
            ⟨111, 10, 111, 12, 222, 0, some (123 / 1000), [⟨5⟩]⟩⟩ ∧
    (handleInspectItemInfo sess4 1500 1200 raw4).2.2 =
      some (max 0 ((1500 : Int) - ((1200 : Int) - ((1000 : Nat) : Int)))) ∧
    (handleInspectItemInfo sess4 1500 1200 raw4).1.busy = sess4.busy := by
  have h := (inspect_completion sess4 req4 1500 1200 raw4 rfl rfl).1 rfl
  exact ⟨h.1, h.2.1, h.2.2.2.2⟩

/-- C7: `logIn` auth-code selection — an explicit one-time code is used
as the auth code regardless of the account secret; otherwise a non-empty
secret of at most 5 characters is sent verbatim as a static auth code;
any longer secret is treated as a shared secret from which the
time-based one-time code is derived. -/
theorem logIn_auth_selection (auth : Option String) (code : Option String)
    (totp : String → Option String) :
    (∀ c, code = some c → logInAuthFields auth code totp = ⟨some c, none⟩) ∧
    (∀ a, code = none → auth = some a → a ≠ "" → a.length ≤ 5 →
      logInAuthFields auth code totp = ⟨some a, none⟩) ∧
    (∀ a, code = none → auth = some a → 5 < a.length →
      logInAuthFields auth code totp = ⟨none, totp a⟩) := by
  refine ⟨?_, ?_, ?_⟩
  · intro c hc
    simp [logInAuthFields, hc]
  · intro a hc ha hne hlen
    simp [logInAuthFields, hc, ha, hne, hlen]
  · intro a hc ha hlen
    have hne : a ≠ "" := by
      intro h
      rw [h] at hlen
      simp at hlen
    simp [logInAuthFields, hc, ha, hne, not_le.mpr hlen]

/-- Witness for the auth-code selection: a one-time code overrides, a
4-character secret is sent verbatim, a 6-character secret goes through
the one-time-code derivation. -/
theorem logIn_auth_selection_witness :
    logInAuthFields (some "abcdef") (some "12345") (fun _ => some "999") =
      ⟨some "12345", none⟩ ∧
    logInAuthFields (some "abcd") none (fun _ => some "999") = ⟨some "abcd", none⟩ ∧
    logInAuthFields (some "abcdef") none (fun _ => some "999") = ⟨none, some "999"⟩ := by
  refine ⟨?_, ?_, ?_⟩
  · exact (logIn_auth_selection (some "abcdef") (some "12345") (fun _ => some "999")).1
      "12345" rfl
  · exact (logIn_auth_selection (some "abcd") none (fun _ => some "999")).2.1
      "abcd" rfl rfl (by decide) (by decide)
  · exact (logIn_auth_selection (some "abcdef") none (fun _ => some "999")).2.2
      "abcdef" rfl rfl (by decide)

/-- C9: calling `sendFloatRequest` on a session that is not ready rejects
the promise with "This bot is not ready", yet still sets `busy`, records
`currentRequest`, and arms the TTL timer for `request_ttl` ms; the
rejection clears nothing — only the TTL timer firing clears `busy` and
`currentRequest`. -/
theorem sendFloatRequest_not_ready (sess : SessionState) (s a d m now ttl : Nat)
    (h : sess.ready = false) :
    (sendFloatRequest sess s a d m now ttl).2.1 = some "This bot is not ready" ∧
    (sendFloatRequest sess s a d m now ttl).1.busy = true ∧
    (sendFloatRequest sess s a d m now ttl).1.currentRequest = some ⟨s, a, d, m, now⟩ ∧
    (sendFloatRequest sess s a d m now ttl).1.hasResolve = true ∧
    (sendFloatRequest sess s a d m now ttl).1.ttlArmed = true ∧
    (sendFloatRequest sess s a d m now ttl).2.2 = ttl ∧
    (ttlTimerFire (sendFloatRequest sess s a d m now ttl).1).busy = false ∧
    (ttlTimerFire (sendFloatRequest sess s a d m now ttl).1).currentRequest = none := by
  simp [sendFloatRequest, ttlTimerFire, h]

/-- Witness for the not-ready rejection at a concrete unready session. -/
theorem sendFloatRequest_not_ready_witness :
    (sendFloatRequest sess9 10 111 12 222 1000 30000).2.1 =
      some "This bot is not ready" ∧
    (sendFloatRequest sess9 10 111 12 222 1000 30000).1.busy = true ∧
    (sendFloatRequest sess9 10 111 12 222 1000 30000).1.currentRequest =
      some ⟨10, 111, 12, 222, 1000⟩ := by
  have h := sendFloatRequest_not_ready sess9 10 111 12 222 1000 30000 rfl
  exact ⟨h.1, h.2.1, h.2.2.1⟩

/-- C10: `releaseBot` on a session that is not a key of `botToGroupMap`
is a no-op on the whole pool — every group's counters are untouched for
either success flag. -/
theorem releaseBot_unmapped (st : PoolState) (b : Nat)
    (h : alookup st.botToGroupMap b = none) :
    releaseBot st b true = st ∧ releaseBot st b false = st := by
  unfold releaseBot
  rw [h]
  exact ⟨rfl, rfl⟩

/-- Witness: releasing the unmapped session 99 leaves `pool6` intact. -/
theorem releaseBot_unmapped_witness :
    releaseBot pool6 99 true = pool6 ∧ releaseBot pool6 99 false = pool6 :=
  releaseBot_unmapped pool6 99 (by decide)

/-- The step `recordFailureStep` touches only `groups` and `failedProxies`. -/
theorem recordFailureStep_preserves (st : PoolState) (b : Nat) :
    (recordFailureStep st b).1.botToGroupMap = st.botToGroupMap ∧
    (recordFailureStep st b).1.botRetryCount = st.botRetryCount ∧
    (recordFailureStep st b).1.retryEnabled = st.retryEnabled ∧
    (recordFailureStep st b).1.maxRetries = st.maxRetries ∧
    (recordFailureStep st b).1.excludeFailed = st.excludeFailed ∧
    (recordFailureStep st b).1.retryDelay = st.retryDelay ∧
    (recordFailureStep st b).1.maxRequestsPerProxy = st.maxRequestsPerProxy := by
  simp only [recordFailureStep]
  repeat' split
  all_goals exact ⟨rfl, rfl, rfl, rfl, rfl, rfl, rfl⟩

/-- Whenever `handleLoginFailure` decides to retry, the reported retry
count is the session's previous count plus one, and the pool-side delay
is 10 s for steamguard and the configured default otherwise. -/
theorem handleLoginFailure_retryInfo (st : PoolState) (b : Nat) (reason : String) :
    (handleLoginFailure st b reason).2.shouldRetry = false ∨
    ((handleLoginFailure st b reason).2.retryCount =
        some ((alookup st.botRetryCount b).getD 0 + 1) ∧
      (handleLoginFailure st b reason).2.retryDelay =
        some (if reason = "steamguard" then 10000 else st.retryDelay)) := by
  obtain ⟨hmap, hcnt, hen, hmr, hex, hrd, hmx⟩ := recordFailureStep_preserves st b
  simp only [handleLoginFailure]
  by_cases h1 : ¬ (recordFailureStep st b).1.retryEnabled
  · rw [if_pos h1]
    left
    rfl
  · rw [if_neg h1]
    by_cases h2 : reason = "steamguard"
    · rw [if_pos h2]
      by_cases h3 : (recordFailureStep st b).1.maxRetries ≤
          (alookup (recordFailureStep st b).1.botRetryCount b).getD 0
      · rw [if_pos h3]
        left
        rfl
      · rw [if_neg h3]
        split
        · right
          rw [if_pos h2]
          exact ⟨by simp only [hcnt], rfl⟩
        · right
          rw [if_pos h2]
          exact ⟨by simp only [hcnt], rfl⟩
    · rw [if_neg h2]
      by_cases h3 : (recordFailureStep st b).1.maxRetries ≤
          (alookup (recordFailureStep st b).1.botRetryCount b).getD 0
      · rw [if_pos h3]
        left
        rfl
      · rw [if_neg h3]
        split
        · left
          rfl
        · right
          rw [if_neg h2]
          exact ⟨by simp only [hcnt], by simp only [hcnt, hrd]⟩

/-- C8: whenever the supervisor schedules a login retry, the delay
before re-issuing `logIn` is 15 s for a steamguard failure, 10 s for a
proxy failure, `min(30 s · 2^(retryCount−1), 120 s)` for a ratelimit
failure (where retryCount is the session's incremented retry count), and
the pool's configured default delay for any other retried reason. -/
theorem login_retry_delay_table (st : PoolState) (b : Nat) (reason : String)
    (st' : PoolState) (d : Nat)
    (h : handleBotLoginFailureDelay st b reason = (st', some d)) :
    (reason = "steamguard" → d = 15000) ∧
    (reason = "proxy" → d = 10000) ∧
    (reason = "ratelimit" →
      d = min (30000 * 2 ^ (((alookup st.botRetryCount b).getD 0 + 1) - 1)) 120000) ∧
    (reason ≠ "steamguard" → reason ≠ "proxy" → reason ≠ "ratelimit" →
      d = st.retryDelay) := by
  by_cases hsg : reason = "steamguard"
  · have hd : d = 15000 := by
      simp only [handleBotLoginFailureDelay, if_pos hsg] at h
      by_cases hc : ((handleLoginFailure st b reason).2.shouldRetry &&
          (handleLoginFailure st b reason).2.newProxy.isSome) = true
      · rw [if_pos hc] at h
        injection h with h1 h2
        injection h2 with h3
        exact h3.symm
      · rw [if_neg hc] at h
        injection h with h1 h2
        exact Option.noConfusion h2
    refine ⟨fun _ => hd, ?_, ?_, ?_⟩
    · intro hp
      rw [hsg] at hp
      exact absurd hp (by decide)
    · intro hr
      rw [hsg] at hr
      exact absurd hr (by decide)
    · intro hn _ _
      exact absurd hsg hn
  · simp only [handleBotLoginFailureDelay, if_neg hsg] at h
    by_cases hsr : ¬ (handleLoginFailure st b reason).2.shouldRetry = true
    · rw [if_pos hsr] at h
      injection h with h1 h2
      exact Option.noConfusion h2
    · rw [if_neg hsr] at h
      injection h with h1 h2
      injection h2 with h3
      rcases handleLoginFailure_retryInfo st b reason with hno | ⟨hrc, hrd⟩
      · exact absurd hno (by simpa using not_not.mp hsr)
      · refine ⟨fun hx => absurd hx hsg, ?_, ?_, ?_⟩
        · intro hp
          have hnr : ¬ reason = "ratelimit" := by
            rw [hp]; decide
          rw [← h3, if_neg hnr, if_pos hp]
        · intro hr
          rw [← h3, if_pos hr, hrc]
          rfl
        · intro hn1 hn2 hn3
          rw [← h3, if_neg hn3, if_neg hn2, hrd, if_neg hsg]
          rfl

/-- Witness for the retry-delay table: on `pool8` a ratelimit failure of
session 7 (previous retry count 0) is retried after
`min(30 s · 2^0, 120 s) = 30 s`. -/
theorem login_retry_delay_table_witness :
    (30000 : Nat) =
      min (30000 * 2 ^ (((alookup pool8.botRetryCount 7).getD 0 + 1) - 1)) 120000 :=
  (login_retry_delay_table pool8 7 "ratelimit" pool8R 30000 (by decide)).2.2.1 rfl

/-- Index view of `modifyIdx`: only position `i` is touched. -/
theorem getElem?_modifyIdx (f : α → α) (i j : Nat) (l : List α) :
    (modifyIdx f i l)[j]? = if i = j then (l[j]?).map f else l[j]? := by
  induction l generalizing i j with
  | nil => simp [modifyIdx]
  | cons a t ih =>
    cases i with
    | zero =>
      cases j with
      | zero => simp [modifyIdx]
      | succ j => simp [modifyIdx]
    | succ i =>
      cases j with
      | zero => simp [modifyIdx]
      | succ j =>
        simp only [modifyIdx, List.getElem?_cons_succ]
        rw [ih]
        by_cases hij : i = j
        · simp [hij]
        · rw [if_neg hij, if_neg (fun h => hij (Nat.succ_injective h))]

/-- An element delivered by `getElem?` is a member. -/
theorem mem_of_some {l : List α} {i : Nat} {a : α} (h : l[i]? = some a) : a ∈ l := by
  obtain ⟨hlt, he⟩ := List.getElem?_eq_some.mp h
  exact he ▸ l.getElem_mem hlt

/-- On a duplicate-free list, `getElem?` hits each value at one index. -/
theorem nodup_some_inj {l : List α} (h : l.Nodup) {i j : Nat} {a : α}
    (hi : l[i]? = some a) (hj : l[j]? = some a) : i = j :=
  List.getElem?_inj (List.getElem?_eq_some.mp hi).1 h (hi.trans hj.symm)

/-- Updating a group by id with a membership-shrinking update preserves the
one-group-per-session invariant. -/
theorem atMostOne_modify_of_subset (gid : Nat) (f : ProxyGroup → ProxyGroup)
    (hf : ∀ g x, x ∈ (f g).bots → x ∈ g.bots)
    (groups : List ProxyGroup) (hinv : AtMostOne groups) :
    AtMostOne (modifyGroupById gid f groups) := by
  intro x i j gi gj hi hj hxi hxj
  rw [modifyGroupById, List.getElem?_map] at hi hj
  obtain ⟨gi0, hgi0, rfl⟩ := Option.map_eq_some'.mp hi
  obtain ⟨gj0, hgj0, rfl⟩ := Option.map_eq_some'.mp hj
  have hxi0 : x ∈ gi0.bots := by
    cases hc : gi0.id == gid with
    | false => simpa [hc] using hxi
    | true => exact hf gi0 x (by simpa [hc] using hxi)
  have hxj0 : x ∈ gj0.bots := by
    cases hc : gj0.id == gid with
    | false => simpa [hc] using hxj
    | true => exact hf gj0 x (by simpa [hc] using hxj)
  exact hinv x i j gi0 gj0 hgi0 hgj0 hxi0 hxj0

/-- Updating a group by id with an id-preserving update keeps the id list. -/
theorem ids_modifyGroupById (gid : Nat) (f : ProxyGroup → ProxyGroup)
    (hfid : ∀ g, (f g).id = g.id) (groups : List ProxyGroup) :
    (modifyGroupById gid f groups).map (·.id) = groups.map (·.id) := by
  rw [modifyGroupById, List.map_map]
  refine List.map_congr_left ?_
  intro g _
  cases hc : g.id == gid with
  | false => simp [Function.comp, hc]
  | true => simp [Function.comp, hc, hfid]

/-- Updating a group by id with a bots- and id-preserving update keeps the
map consistent. -/
theorem mapConsistent_modify (gid : Nat) (f : ProxyGroup → ProxyGroup)
    (groups : List ProxyGroup) (mp : List (Nat × Nat))
    (hfb : ∀ g, (f g).bots = g.bots) (hfid : ∀ g, (f g).id = g.id)
    (hmc : MapConsistent groups mp) :
    MapConsistent (modifyGroupById gid f groups) mp := by
  intro b g hg hb
  rw [modifyGroupById] at hg
  obtain ⟨g0, hg0, rfl⟩ := List.mem_map.mp hg
  cases hc : g0.id == gid with
  | false =>
    simp only [hc] at hb ⊢
    simp only [Bool.false_eq_true, if_false] at hb ⊢
    exact hmc b g0 hg0 hb
  | true =>
    simp only [hc, if_true] at hb ⊢
    rw [hfb] at hb
    rw [hfid]
    exact hmc b g0 hg0 hb

/-- Nodup bots lists survive a bots-preserving `modifyGroupById`. -/
theorem nodupBots_modify (gid : Nat) (f : ProxyGroup → ProxyGroup)
    (hfb : ∀ g, (f g).bots = g.bots) (groups : List ProxyGroup)
    (hnd : ∀ g ∈ groups, g.bots.Nodup) :
    ∀ g ∈ modifyGroupById gid f groups, g.bots.Nodup := by
  intro g hg
  obtain ⟨g0, hg0, rfl⟩ := List.mem_map.mp hg
  cases hc : g0.id == gid with
  | false => simpa [hc] using hnd g0 hg0
  | true => simpa [hc, hfb] using hnd g0 hg0

/-- Removing a session's binding preserves the invariant. -/
theorem atMostOne_removeFromCurrent (st : PoolState) (b : Nat)
    (hinv : AtMostOne st.groups) : AtMostOne (removeFromCurrent st b) := by
  unfold removeFromCurrent
  cases alookup st.botToGroupMap b with
  | none => exact hinv
  | some gid =>
    exact atMostOne_modify_of_subset gid _
      (fun g x hx => List.mem_of_mem_erase (by simpa [ProxyGroup.removeBot] using hx))
      st.groups hinv

/-- The id list is untouched by the removal step. -/
theorem ids_removeFromCurrent (st : PoolState) (b : Nat) :
    (removeFromCurrent st b).map (·.id) = st.groups.map (·.id) := by
  unfold removeFromCurrent
  cases alookup st.botToGroupMap b with
  | none => rfl
  | some gid =>
    show (modifyGroupById gid (fun g => g.removeBot b) st.groups).map (·.id)
      = st.groups.map (·.id)
    exact ids_modifyGroupById gid (fun g => g.removeBot b) (fun g => rfl) st.groups

/-- In a map-consistent pool with duplicate-free bots lists, the removal
step leaves the session bound to no group at all. -/
theorem notInAny_removeFromCurrent (st : PoolState) (b : Nat)
    (hmc : MapConsistent st.groups st.botToGroupMap)
    (hnd : ∀ g ∈ st.groups, g.bots.Nodup) :
    NotInAnyGroup (removeFromCurrent st b) b := by
  unfold removeFromCurrent
  cases halk : alookup st.botToGroupMap b with
  | none =>
    intro i g hg hb
    have := hmc b g (mem_of_some hg) hb
    rw [halk] at this
    exact Option.noConfusion this
  | some gid =>
    show NotInAnyGroup (modifyGroupById gid (fun g => g.removeBot b) st.groups) b
    intro i g hg hb
    rw [modifyGroupById, List.getElem?_map] at hg
    obtain ⟨g0, hg0, rfl⟩ := Option.map_eq_some'.mp hg
    cases hc : g0.id == gid with
    | true =>
      rw [hc] at hb
      simp only [if_true, ProxyGroup.removeBot] at hb
      exact (hnd g0 (mem_of_some hg0)).not_mem_erase hb
    | false =>
      rw [hc] at hb
      simp only [Bool.false_eq_true, if_false] at hb
      have := hmc b g0 (mem_of_some hg0) hb
      rw [halk] at this
      injection this with this'
      exact absurd this'.symm (beq_eq_false_iff_ne.mp hc)

/-- Binding a session that is in no group into one group preserves the
invariant, provided group ids are distinct. -/
theorem atMostOne_addBot (groups : List ProxyGroup) (gid b : Nat)
    (hids : (groups.map (·.id)).Nodup)
    (hnb : NotInAnyGroup groups b) (hinv : AtMostOne groups) :
    AtMostOne (modifyGroupById gid (fun g => g.addBot b) groups) := by
  intro x i j gi gj hi hj hxi hxj
  rw [modifyGroupById, List.getElem?_map] at hi hj
  obtain ⟨gi0, hgi0, rfl⟩ := Option.map_eq_some'.mp hi
  obtain ⟨gj0, hgj0, rfl⟩ := Option.map_eq_some'.mp hj
  by_cases hxb : x = b
  · subst hxb
    cases hci : gi0.id == gid with
    | false =>
      rw [hci] at hxi
      simp only [Bool.false_eq_true, if_false] at hxi
      exact absurd hxi (hnb i gi0 hgi0)
    | true =>
      cases hcj : gj0.id == gid with
      | false =>
        rw [hcj] at hxj
        simp only [Bool.false_eq_true, if_false] at hxj
        exact absurd hxj (hnb j gj0 hgj0)
      | true =>
        have hIi : (groups.map (fun g => g.id))[i]? = some gid := by
          rw [List.getElem?_map, hgi0]
          simp [beq_iff_eq.mp hci]
        have hIj : (groups.map (fun g => g.id))[j]? = some gid := by
          rw [List.getElem?_map, hgj0]
          simp [beq_iff_eq.mp hcj]
        exact nodup_some_inj hids hIi hIj
  · have hxi0 : x ∈ gi0.bots := by
      cases hci : gi0.id == gid with
      | false =>
        rw [hci] at hxi
        simpa using hxi
      | true =>
        rw [hci] at hxi
        simp only [if_true, ProxyGroup.addBot] at hxi
        rcases List.mem_append.mp hxi with h0 | hb1
        · exact h0
        · exact absurd (by simpa using hb1) hxb
    have hxj0 : x ∈ gj0.bots := by
      cases hcj : gj0.id == gid with
      | false =>
        rw [hcj] at hxj
        simpa using hxj
      | true =>
        rw [hcj] at hxj
        simp only [if_true, ProxyGroup.addBot] at hxj
        rcases List.mem_append.mp hxj with h0 | hb1
        · exact h0
        · exact absurd (by simpa using hb1) hxb
    exact hinv x i j gi0 gj0 hgi0 hgj0 hxi0 hxj0

/-- The operation `reassignBot` preserves the one-group-per-session invariant. -/
theorem atMostOne_reassignBot (st : PoolState) (b : Nat) (excl : List Nat)
    (hinv : AtMostOne st.groups) (hmc : MapConsistent st.groups st.botToGroupMap)
    (hnd : ∀ g ∈ st.groups, g.bots.Nodup)
    (hids : (st.groups.map (·.id)).Nodup) :
    AtMostOne ((reassignBot st b excl).1.groups) := by
  have h1 := atMostOne_removeFromCurrent st b hinv
  have hnb := notInAny_removeFromCurrent st b hmc hnd
  have hids1 : ((removeFromCurrent st b).map (·.id)).Nodup := by
    rw [ids_removeFromCurrent]
    exact hids
  simp only [reassignBot]
  split
  · exact h1
  · exact atMostOne_addBot (removeFromCurrent st b) _ b hids1 hnb h1

/-- The distribution loop keeps each pending bot out of every group and
preserves the one-group-per-session invariant. -/
theorem distributeLoop_atMostOne (bpp len : Nat) (bots : List Nat) :
    ∀ (bi pi : Nat) (groups : List ProxyGroup) (mp : List (Nat × Nat)),
      bots.Nodup → (∀ x ∈ bots, NotInAnyGroup groups x) → AtMostOne groups →
      AtMostOne (distributeLoop bpp len bots bi pi groups mp).1 := by
  induction bots with
  | nil =>
    intro bi pi groups mp _ _ hinv
    exact hinv
  | cons b rest ih =>
    intro bi pi groups mp hnd hnin hinv
    simp only [distributeLoop]
    apply ih
    · exact (List.nodup_cons.mp hnd).2
    · intro x hx i g hg hxg
      rw [getElem?_modifyIdx] at hg
      by_cases hpi : pi = i
      · rw [if_pos hpi] at hg
        obtain ⟨g0, hg0, rfl⟩ := Option.map_eq_some'.mp hg
        rcases (show x ∈ g0.bots ∨ x = b by
            simpa [ProxyGroup.addBot] using hxg) with hx0 | hxb
        · exact hnin x (List.mem_cons_of_mem _ hx) i g0 hg0 hx0
        · subst hxb
          exact (List.nodup_cons.mp hnd).1 hx
      · rw [if_neg hpi] at hg
        exact hnin x (List.mem_cons_of_mem _ hx) i g hg hxg
    · intro x i j gi gj hi hj hxi hxj
      rw [getElem?_modifyIdx] at hi hj
      by_cases hxb : x = b
      · subst hxb
        by_cases hpi : pi = i
        · by_cases hpj : pi = j
          · omega
          · rw [if_neg hpj] at hj
            exact absurd hxj (hnin x (List.mem_cons_self x rest) j gj hj)
        · rw [if_neg hpi] at hi
          exact absurd hxi (hnin x (List.mem_cons_self x rest) i gi hi)
      · have hxi0 : ∃ gi0, groups[i]? = some gi0 ∧ x ∈ gi0.bots := by
          by_cases hpi : pi = i
          · rw [if_pos hpi] at hi
            obtain ⟨gi0, hgi0, rfl⟩ := Option.map_eq_some'.mp hi
            refine ⟨gi0, hgi0, ?_⟩
            rcases (show x ∈ gi0.bots ∨ x = b by
                simpa [ProxyGroup.addBot] using hxi) with h0 | hb1
            · exact h0
            · exact absurd hb1 hxb
          · rw [if_neg hpi] at hi
            exact ⟨gi, hi, hxi⟩
        have hxj0 : ∃ gj0, groups[j]? = some gj0 ∧ x ∈ gj0.bots := by
          by_cases hpj : pi = j
          · rw [if_pos hpj] at hj
            obtain ⟨gj0, hgj0, rfl⟩ := Option.map_eq_some'.mp hj
            refine ⟨gj0, hgj0, ?_⟩
            rcases (show x ∈ gj0.bots ∨ x = b by
                simpa [ProxyGroup.addBot] using hxj) with h0 | hb1
            · exact h0
            · exact absurd hb1 hxb
          · rw [if_neg hpj] at hj
            exact ⟨gj, hj, hxj⟩
        obtain ⟨gi0, hgi0, hxi0'⟩ := hxi0
        obtain ⟨gj0, hgj0, hxj0'⟩ := hxj0
        exact hinv x i j gi0 gj0 hgi0 hgj0 hxi0' hxj0'

/-- The operation `distributeBots` yields a state with each bot in at most one group,
for any duplicate-free bot list. -/
theorem atMostOne_distributeBots (st : PoolState) (bots : List Nat)
    (hinv : AtMostOne st.groups) (hnd : bots.Nodup) :
    AtMostOne (distributeBots st bots).groups := by
  unfold distributeBots
  by_cases hz : st.groups.length = 0
  · rw [if_pos hz]
    exact hinv
  · rw [if_neg hz]
    apply distributeLoop_atMostOne
    · exact hnd
    · intro x _ i g hg hxg
      rw [List.getElem?_map] at hg
      obtain ⟨g0, hg0, rfl⟩ := Option.map_eq_some'.mp hg
      simp at hxg
    · intro x i j gi gj hi hj hxi hxj
      rw [List.getElem?_map] at hi
      obtain ⟨gi0, hgi0, rfl⟩ := Option.map_eq_some'.mp hi
      simp at hxi

/-- The groups after `recordFailureStep` are the old groups with at most
one group's `loginFailures` counter bumped. -/
theorem recordFailureStep_groups (st : PoolState) (b : Nat) :
    (recordFailureStep st b).1.groups = st.groups ∨
    ∃ gid, (recordFailureStep st b).1.groups =
      modifyGroupById gid (fun g => g.recordLoginFailure) st.groups := by
  simp only [recordFailureStep]
  repeat' split
  all_goals first
    | (left; rfl)
    | (right; exact ⟨_, rfl⟩)

/-- The operation `handleLoginFailure` preserves the one-group-per-session invariant. -/
theorem atMostOne_handleLoginFailure (st : PoolState) (b : Nat) (reason : String)
    (hinv : AtMostOne st.groups) (hmc : MapConsistent st.groups st.botToGroupMap)
    (hnd : ∀ g ∈ st.groups, g.bots.Nodup)
    (hids : (st.groups.map (·.id)).Nodup) :
    AtMostOne ((handleLoginFailure st b reason).1.groups) := by
  obtain ⟨hmap, hcnt, _, _, _, _, _⟩ := recordFailureStep_preserves st b
  have hgr := recordFailureStep_groups st b
  have hinv1 : AtMostOne (recordFailureStep st b).1.groups := by
    rcases hgr with h | ⟨gid, h⟩
    · rw [h]; exact hinv
    · rw [h]
      exact atMostOne_modify_of_subset gid _
        (fun g x hx => by simpa [ProxyGroup.recordLoginFailure] using hx) st.groups hinv
  have hmc1 : MapConsistent (recordFailureStep st b).1.groups
      (recordFailureStep st b).1.botToGroupMap := by
    rw [hmap]
    rcases hgr with h | ⟨gid, h⟩
    · rw [h]; exact hmc
    · rw [h]
      exact mapConsistent_modify gid _ st.groups st.botToGroupMap
        (fun g => rfl) (fun g => rfl) hmc
  have hnd1 : ∀ g ∈ (recordFailureStep st b).1.groups, g.bots.Nodup := by
    rcases hgr with h | ⟨gid, h⟩
    · rw [h]; exact hnd
    · rw [h]
      exact nodupBots_modify gid (fun g => g.recordLoginFailure) (fun g => rfl) st.groups hnd
  have hids1 : ((recordFailureStep st b).1.groups.map (·.id)).Nodup := by
    rcases hgr with h | ⟨gid, h⟩
    · rw [h]; exact hids
    · rw [h]
      rw [ids_modifyGroupById gid (fun g => g.recordLoginFailure) (fun g => rfl) st.groups]
      exact hids
  simp only [handleLoginFailure]
  split
  · exact hinv1
  · split
    · split
      · exact hinv1
      · split
        · exact atMostOne_reassignBot _ b _ hinv1 hmc1 hnd1 hids1
        · exact atMostOne_reassignBot _ b _ hinv1 hmc1 hnd1 hids1
    · split
      · exact hinv1
      · split
        · exact atMostOne_reassignBot _ b _ hinv1 hmc1 hnd1 hids1
        · exact atMostOne_reassignBot _ b _ hinv1 hmc1 hnd1 hids1

/-- C5: in every reachable pool state (one whose bots lists are
duplicate-free, whose group ids are distinct, and whose `botToGroupMap`
names the group of every bound session — all true of states the pool
itself builds), every session belongs to at most one group's bots list,
and this is preserved by `distributeBots` (for distinct sessions),
`reassignBot`, `addBot` on a group (as the pool calls it: on a session
bound nowhere), `removeBot` on a group, and `handleLoginFailure`. -/
theorem session_at_most_one_group (st : PoolState)
    (hinv : AtMostOne st.groups)
    (hmc : MapConsistent st.groups st.botToGroupMap)
    (hnd : ∀ g ∈ st.groups, g.bots.Nodup)
    (hids : (st.groups.map (·.id)).Nodup) :
    (∀ bots, bots.Nodup → AtMostOne (distributeBots st bots).groups) ∧
    (∀ b excl, AtMostOne ((reassignBot st b excl).1).groups) ∧
    (∀ gid b, NotInAnyGroup st.groups b →
      AtMostOne (modifyGroupById gid (fun g => g.addBot b) st.groups)) ∧
    (∀ gid b, AtMostOne (modifyGroupById gid (fun g => g.removeBot b) st.groups)) ∧
    (∀ b reason, AtMostOne ((handleLoginFailure st b reason).1).groups) := by
  refine ⟨?_, ?_, ?_, ?_, ?_⟩
  · intro bots hbn
    exact atMostOne_distributeBots st bots hinv hbn
  · intro b excl
    exact atMostOne_reassignBot st b excl hinv hmc hnd hids
  · intro gid b hnb
    exact atMostOne_addBot st.groups gid b hids hnb hinv
  · intro gid b
    exact atMostOne_modify_of_subset gid _
      (fun g x hx => List.mem_of_mem_erase (by simpa [ProxyGroup.removeBot] using hx))
      st.groups hinv
  · intro b reason
    exact atMostOne_handleLoginFailure st b reason hinv hmc hnd hids

/-- Witness for the invariant theorem on the concrete pool `pool5`:
reassignment and a proxy-reason login failure keep session 7 in at most
one group. -/
theorem session_at_most_one_group_witness :
    AtMostOne ((reassignBot pool5 7 []).1.groups) ∧
    AtMostOne ((handleLoginFailure pool5 7 "proxy").1.groups) := by
  have hinv : AtMostOne pool5.groups := by
    intro b i j gi gj hi hj _ _
    have h1 := (List.getElem?_eq_some.mp hi).1
    have h2 := (List.getElem?_eq_some.mp hj).1
    simp [pool5] at h1 h2
    omega
  have hmc : MapConsistent pool5.groups pool5.botToGroupMap := by
    intro b g hg hb
    simp only [pool5] at hg
    rw [List.mem_singleton] at hg
    subst hg
    have hb7 : b = 7 := by simpa using hb
    subst hb7
    decide
  have hnd : ∀ g ∈ pool5.groups, g.bots.Nodup := by
    intro g hg
    simp only [pool5] at hg
    rw [List.mem_singleton] at hg
    subst hg
    decide
  have hids : (pool5.groups.map (·.id)).Nodup := by decide
  exact ⟨(session_at_most_one_group pool5 hinv hmc hnd hids).2.1 7 [],
         (session_at_most_one_group pool5 hinv hmc hnd hids).2.2.2.2 7 "proxy"⟩

/-- A non-candidate group extends the scan invariant one step. -/
theorem scanInv_extend_notCand (maxReq cooldown now : Nat) (flags : Nat → BotFlags)
    (gs : List ProxyGroup) (k : Nat) (m : Option ℚ) (acc : Option (Nat × Nat))
    (g : ProxyGroup) (hk : gs[k]? = some g)
    (hnc : ¬ Cand maxReq cooldown now flags g)
    (hinv : ScanInv maxReq cooldown now flags gs k m acc) :
    ScanInv maxReq cooldown now flags gs (k + 1) m acc := by
  rcases hinv with ⟨hm, ha, hall⟩ | ⟨i, b, gi, hm, ha, hik, hgi, hcand, havail, hmin, hstrict⟩
  · left
    refine ⟨hm, ha, ?_⟩
    intro j g' hj hg'
    by_cases hjk : j = k
    · subst hjk
      rw [hk] at hg'
      injection hg' with e
      rw [← e]
      exact hnc
    · exact hall j g' (by omega) hg'
  · right
    refine ⟨i, b, gi, hm, ha, by omega, hgi, hcand, havail, ?_, hstrict⟩
    intro j g' hj hg' hc
    by_cases hjk : j = k
    · subst hjk
      rw [hk] at hg'
      injection hg' with e
      rw [← e] at hc
      exact absurd hc hnc
    · exact hmin j g' (by omega) hg' hc

/-- A group that does not beat the running minimum extends the scan
invariant one step. -/
theorem scanInv_extend_ge (maxReq cooldown now : Nat) (flags : Nat → BotFlags)
    (gs : List ProxyGroup) (k : Nat) (m : Option ℚ) (acc : Option (Nat × Nat))
    (g : ProxyGroup) (hk : gs[k]? = some g)
    (hge : ltLoad (groupLoad g) m = false)
    (hinv : ScanInv maxReq cooldown now flags gs k m acc) :
    ScanInv maxReq cooldown now flags gs (k + 1) m acc := by
  rcases hinv with ⟨hm, ha, hall⟩ | ⟨i, b, gi, hm, ha, hik, hgi, hcand, havail, hmin, hstrict⟩
  · subst hm
    simp [ltLoad] at hge
  · right
    refine ⟨i, b, gi, hm, ha, by omega, hgi, hcand, havail, ?_, hstrict⟩
    intro j g' hj hg' hc
    by_cases hjk : j = k
    · subst hjk
      rw [hk] at hg'
      injection hg' with e
      rw [← e]
      rw [hm] at hge
      simpa [ltLoad] using hge
    · exact hmin j g' (by omega) hg' hc

/-- Running the least-loaded scan over the unscanned suffix carries the
scan invariant to the end of the group list. -/
theorem llAux_inv (maxReq cooldown now : Nat) (flags : Nat → BotFlags)
    (suf : List ProxyGroup) :
    ∀ (gs : List ProxyGroup) (k : Nat) (m : Option ℚ) (acc : Option (Nat × Nat)),
      gs.drop k = suf →
      ScanInv maxReq cooldown now flags gs k m acc →
      ∃ m', ScanInv maxReq cooldown now flags gs gs.length m'
        (llAux maxReq cooldown now flags suf k m acc) := by
  induction suf with
  | nil =>
    intro gs k m acc hdrop hinv
    have hlen : gs.length ≤ k := List.drop_eq_nil_iff.mp hdrop
    refine ⟨m, ?_⟩
    rcases hinv with ⟨hm, ha, hall⟩ | ⟨i, b, gi, hm, ha, hik, hgi, hcand, havail, hmin, hstrict⟩
    · left
      exact ⟨hm, ha, fun j g' hj hg' => hall j g' (by omega) hg'⟩
    · right
      refine ⟨i, b, gi, hm, ha, (List.getElem?_eq_some.mp hgi).1, hgi, hcand, havail,
        ?_, hstrict⟩
      intro j g' hj hg' hc
      exact hmin j g' (by omega) hg' hc
  | cons g rest ih =>
    intro gs k m acc hdrop hinv
    have hk : gs[k]? = some g := by
      have h0 := List.getElem?_drop gs k 0
      rw [hdrop] at h0
      simpa using h0.symm
    have hdrop' : gs.drop (k + 1) = rest := by
      have h1 : gs.drop (k + 1) = (gs.drop k).drop 1 := (List.drop_drop 1 k gs).symm
      rw [hdrop] at h1
      simpa using h1
    simp only [llAux]
    by_cases hca : g.canAcceptRequest maxReq cooldown now = true
    · rw [if_pos hca]
      by_cases hlt : ltLoad (groupLoad g) m = true
      · rw [if_pos hlt]
        cases hav : g.getAvailableBot flags with
        | none =>
          exact ih gs (k + 1) m acc hdrop'
            (scanInv_extend_notCand maxReq cooldown now flags gs k m acc g hk
              (fun hc => by have h2 := hc.2; rw [hav] at h2; simp at h2) hinv)
        | some b0 =>
          apply ih gs (k + 1) (some (groupLoad g)) (some (k, b0)) hdrop'
          right
          refine ⟨k, b0, g, rfl, rfl, Nat.lt_succ_self k, hk,
            ⟨hca, by rw [hav]; rfl⟩, hav, ?_, ?_⟩
          · intro j g' hj hg' hc
            by_cases hjk : j = k
            · subst hjk
              rw [hk] at hg'
              injection hg' with e
              exact e ▸ le_rfl
            · have hjlt : j < k := by omega
              rcases hinv with ⟨hm, ha, hall⟩ |
                ⟨i, b, gi, hm, ha, hik, hgi, hcand, havail, hmin, hstrict⟩
              · exact absurd hc (hall j g' hjlt hg')
              · have h1 := hmin j g' hjlt hg' hc
                have h2 : groupLoad g < groupLoad gi := by
                  rw [hm] at hlt
                  simpa [ltLoad] using hlt
                exact le_of_lt (lt_of_lt_of_le h2 h1)
          · intro j g' hj hg' hc
            rcases hinv with ⟨hm, ha, hall⟩ |
              ⟨i, b, gi, hm, ha, hik, hgi, hcand, havail, hmin, hstrict⟩
            · exact absurd hc (hall j g' hj hg')
            · have h1 := hmin j g' (by omega) hg' hc
              have h2 : groupLoad g < groupLoad gi := by
                rw [hm] at hlt
                simpa [ltLoad] using hlt
              exact lt_of_lt_of_le h2 h1
      · rw [if_neg hlt]
        exact ih gs (k + 1) m acc hdrop'
          (scanInv_extend_ge maxReq cooldown now flags gs k m acc g hk
            (Bool.eq_false_iff.mpr hlt) hinv)
    · rw [if_neg hca]
      exact ih gs (k + 1) m acc hdrop'
        (scanInv_extend_notCand maxReq cooldown now flags gs k m acc g hk
          (fun hc => hca hc.1) hinv)

/-- C6: a successful `least_loaded` selection returns a ready, non-busy
session found in an admissible group whose load `activeRequests /
max(1, |bots|)` is minimal among all admissible groups holding an
available session, with ties broken by iteration order (every earlier
such group has strictly larger load); the chosen group's
`activeRequests` and `totalRequests` are incremented and its
`lastRequestTime` stamped with `now`, while every other group and the
bot-to-group map are untouched. -/
theorem least_loaded_selection (st : PoolState) (flags : Nat → BotFlags) (now : Nat)
    (st' : PoolState) (b : Nat)
    (h : st.getAvailableBot flags now "least_loaded" = (st', some b)) :
    ∃ (i : Nat) (gi : ProxyGroup), st.groups[i]? = some gi ∧
      gi.canAcceptRequest st.maxRequestsPerProxy st.requestCooldown now = true ∧
      gi.getAvailableBot flags = some b ∧
      b ∈ gi.bots ∧ (flags b).busy = false ∧ (flags b).ready = true ∧
      (∀ (j : Nat) (g : ProxyGroup), st.groups[j]? = some g →
        Cand st.maxRequestsPerProxy st.requestCooldown now flags g →
        groupLoad gi ≤ groupLoad g) ∧
      (∀ (j : Nat) (g : ProxyGroup), j < i → st.groups[j]? = some g →
        Cand st.maxRequestsPerProxy st.requestCooldown now flags g →
        groupLoad gi < groupLoad g) ∧
      st'.groups[i]? = some { gi with activeRequests := gi.activeRequests + 1,
                                      totalRequests := gi.totalRequests + 1,
                                      lastRequestTime := now } ∧
      (∀ j : Nat, j ≠ i → st'.groups[j]? = st.groups[j]?) ∧
      st'.botToGroupMap = st.botToGroupMap := by
  simp only [PoolState.getAvailableBot] at h
  rw [if_neg (by decide : ¬ ("least_loaded" = "round_robin"))] at h
  cases hll : llAux st.maxRequestsPerProxy st.requestCooldown now flags st.groups 0
      none none with
  | none =>
    rw [hll] at h
    injection h with h1 h2
    exact Option.noConfusion h2
  | some ib =>
    obtain ⟨i, b0⟩ := ib
    rw [hll] at h
    injection h with h1 h2
    injection h2 with h3
    subst h3
    obtain ⟨m', hinv⟩ := llAux_inv st.maxRequestsPerProxy st.requestCooldown now flags
      st.groups st.groups 0 none none rfl
      (Or.inl ⟨rfl, rfl, fun j g hj _ => absurd hj (Nat.not_lt_zero j)⟩)
    rw [hll] at hinv
    rcases hinv with ⟨_, ha, _⟩ | ⟨i', b', gi, hm, ha, hik, hgi, hcand, havail, hmin, hstrict⟩
    · exact Option.noConfusion ha
    · injection ha with ha'
      cases ha'
      have hpred := List.find?_some
        (show gi.bots.find? (fun x => !(flags x).busy && (flags x).ready) = some b0 from havail)
      have hbmem : b0 ∈ gi.bots := List.mem_of_find?_eq_some
        (show gi.bots.find? (fun x => !(flags x).busy && (flags x).ready) = some b0 from havail)
      have hboth : (flags b0).busy = false ∧ (flags b0).ready = true := by
        simpa using hpred
      refine ⟨i, gi, hgi, hcand.1, havail, hbmem, hboth.1, hboth.2, ?_, ?_, ?_, ?_, ?_⟩
      · intro j g hg hc
        exact hmin j g (List.getElem?_eq_some.mp hg).1 hg hc
      · intro j g hj hg hc
        exact hstrict j g hj hg hc
      · rw [← h1]
        show (modifyIdx (fun g => g.startRequest now) i st.groups)[i]? = _
        rw [getElem?_modifyIdx, if_pos rfl, hgi]
        rfl
      · intro j hj
        rw [← h1]
        show (modifyIdx (fun g => g.startRequest now) i st.groups)[j]? = _
        rw [getElem?_modifyIdx, if_neg (fun e => hj e.symm)]
      · rw [← h1]

/-- Witness for the least-loaded selection: on `pool6` at time 50, group
1 (load 1/2, beating group 0's load 1) hands out its only free session,
session 4, and is charged for it. -/
theorem least_loaded_selection_witness :
    ∃ (i : Nat) (gi : ProxyGroup), pool6.groups[i]? = some gi ∧
      gi.canAcceptRequest pool6.maxRequestsPerProxy pool6.requestCooldown 50 = true ∧
      gi.getAvailableBot flags6 = some 4 ∧
      4 ∈ gi.bots ∧ (flags6 4).busy = false ∧ (flags6 4).ready = true ∧
      (∀ (j : Nat) (g : ProxyGroup), pool6.groups[j]? = some g →
        Cand pool6.maxRequestsPerProxy pool6.requestCooldown 50 flags6 g →
        groupLoad gi ≤ groupLoad g) ∧
      (∀ (j : Nat) (g : ProxyGroup), j < i → pool6.groups[j]? = some g →
        Cand pool6.maxRequestsPerProxy pool6.requestCooldown 50 flags6 g →
        groupLoad gi < groupLoad g) ∧
      pool6after.groups[i]? = some { gi with activeRequests := gi.activeRequests + 1,
                                             totalRequests := gi.totalRequests + 1,
                                             lastRequestTime := 50 } ∧
      (∀ j : Nat, j ≠ i → pool6after.groups[j]? = pool6.groups[j]?) ∧
      pool6after.botToGroupMap = pool6.botToGroupMap := by
  apply least_loaded_selection pool6 flags6 50 pool6after 4
  norm_num [PoolState.getAvailableBot, llAux, ltLoad, groupLoad,
    ProxyGroup.canAcceptRequest, ProxyGroup.getAvailableBot, ProxyGroup.startRequest,
    pool6, g60, g61, flags6, pool6after, modifyIdx, List.find?]
  intro hcon
  exact absurd hcon (by decide)
